import Mathlib

/-
Verification development for the use-tRPC binding layer (src/src/useTRPC.ts).

The embedding models the authoritative snapshot of the module (the one whose
line numbers the design document cites): the Execution Registry
(addExecution/removeExecution over the activeExecutions Map and the module
counter), the procedure execution scheduler (execute/_execute with its
coalescing flag), the reactivity classifier (shouldTrackReactiveArgs,
shouldTrackHeaderReactivity and the watch-installation guards), and the
subscription lifecycle functions (_subscribe/subscribe/unsubscribe, the
argument watcher and the connectivity watcher).

JavaScript semantics are embedded as follows: the single-threaded event loop
means the code of an async function up to its first await runs atomically, so
execute() is split into its synchronous prefix (executeSync) and its deferred
remainder (executeFinish); promise rejection of the remote call is a value of
an Except type, consumed by the try/catch of _execute; undefined is Option.none.
-/

namespace UseTRPC

/-- Number.MAX_SAFE_INTEGER, the bound the execution counter wraps at. -/
def MAX_SAFE_INTEGER : Nat := 2 ^ 53 - 1

/-! ## Execution Registry

Embeds the module-level mutable state of one useTRPC facade:
the counter variable `id` and the `activeExecutions` Map, which preserves
insertion order and is modelled as an association list. -/

/-- State of the facade's Execution Registry: the counter variable `id` and
the insertion-ordered entries of the `activeExecutions` Map. -/
structure Registry where
  counter : Nat
  active : List (Nat × Option String)
deriving Repr, DecidableEq

/-- Registry state at facade construction: `let id = 0`, empty Map. -/
def Registry.init : Registry := ⟨0, []⟩

/-- Map.set semantics on an insertion-ordered association list: replace the
value in place when the key is present, append otherwise. -/
def mapSet (m : List (Nat × Option String)) (k : Nat) (v : Option String) :
    List (Nat × Option String) :=
  if m.any (fun p => p.1 == k) then m.map (fun p => if p.1 == k then (k, v) else p)
  else m ++ [(k, v)]

/-- Source addExecution: `if (id >= Number.MAX_SAFE_INTEGER) id = 0; id++;
activeExecutions.value.set(id, msg); return id`. -/
def addExecution (r : Registry) (msg : Option String) : Registry × Nat :=
  let c := if MAX_SAFE_INTEGER ≤ r.counter then 0 else r.counter
  let i := c + 1
  (⟨i, mapSet r.active i msg⟩, i)

/-- Source removeExecution: `activeExecutions.value.delete(id)`. -/
def removeExecution (r : Registry) (i : Nat) : Registry :=
  ⟨r.counter, r.active.filter (fun p => !(p.1 == i))⟩

/-- Source isExecuting: `computed(() => !!activeExecutions.value.size)`. -/
def Registry.isExecuting (r : Registry) : Bool := !(r.active.length == 0)

/-- Source executions: `computed(() => [...activeExecutions.value.values()])`. -/
def Registry.executions (r : Registry) : List (Option String) := r.active.map Prod.snd

/-! ## Procedure binding state and the execution scheduler -/

/-- Per-binding reactive state of a query/mutation call site: `data`
(shallowRef seeded with initialData), `error` (ref()), the coalescing flag
`_executing`, and `paused`. -/
structure ProcState (D E : Type) where
  data : Option D
  error : Option E
  executing : Bool
  paused : Bool
deriving Repr, DecidableEq

/-- Binding state at call-site creation. -/
def ProcState.init (D E : Type) (initialData : Option D) : ProcState D E :=
  ⟨initialData, none, false, false⟩

/-- The args parameter of useQuery/useMutation: a plain value, a synchronous
accessor, or an asynchronous accessor. An accessor may yield undefined
(Option.none); a plain value is passed through as is. -/
inductive ArgsSource (A : Type)
  | value (v : A)
  | accessor (f : Unit → Option A)
  | asyncAccessor (f : Unit → Option A)

/-- Source `areArgsFn = typeof args === 'function'`. -/
def ArgsSource.isFn {A : Type} : ArgsSource A → Bool
  | .value _ => false
  | .accessor _ => true
  | .asyncAccessor _ => true

/-- Argument resolution at call time: `areArgsFn ? await args() : args`.
Resolution yields none only for an accessor returning undefined; a plain
value always resolves. -/
def ArgsSource.resolve {A : Type} : ArgsSource A → Option A
  | .value v => some v
  | .accessor f => f ()
  | .asyncAccessor f => f ()

/-- Source _execute: resolve the args; when the args come from an accessor
that yielded undefined, return without calling the remote procedure
(`if (areArgsFn && _args === undefined) return`); otherwise perform the
remote call and publish its settlement: fulfilment into data, rejection into
error (the try/catch around the body). The remote call is the function
`call`, its rejection is the Except.error case; the Nat output counts remote
invocations performed (0 or 1). The abort-controller bookkeeping of the
source is not modelled; no claim depends on it. -/
def _execute {A D E : Type} (src : ArgsSource A) (call : A → Except E D)
    (s : ProcState D E) : ProcState D E × Nat :=
  match src.resolve with
  | none => (s, 0)
  | some v =>
    match call v with
    | .ok d => ({ s with data := some d }, 1)
    | .error e => ({ s with error := some e }, 1)

/-- The synchronous prefix of execute(), everything before `await nextTick`:
`if (_executing.value) return; const id = addExecution(msg);
_executing.value = true`. Returns none in the third component when the call
coalesced (an execution was already in flight). -/
def executeSync {D E : Type} (reg : Registry) (s : ProcState D E)
    (msg : Option String) : Registry × ProcState D E × Option Nat :=
  if s.executing then (reg, s, none)
  else
    let p := addExecution reg msg
    (p.1, { s with executing := true }, some p.2)

/-- The deferred remainder of execute(), run after the scheduling tick:
`await nextTick(() => _execute()); _executing.value = false;
removeExecution(id)`. -/
def executeFinish {A D E : Type} (reg : Registry) (s : ProcState D E) (i : Nat)
    (src : ArgsSource A) (call : A → Except E D) :
    Registry × ProcState D E × Nat :=
  let p := _execute src call s
  (removeExecution reg i, { p.1 with executing := false }, p.2)

/-- One full, uninterleaved execute() call: synchronous prefix, then (when an
execution was started) the deferred remainder. The Nat output counts remote
invocations. -/
def executeRun {A D E : Type} (reg : Registry) (s : ProcState D E)
    (msg : Option String) (src : ArgsSource A) (call : A → Except E D) :
    Registry × ProcState D E × Nat :=
  match executeSync reg s msg with
  | (reg1, s1, none) => (reg1, s1, 0)
  | (reg1, s1, some i) => executeFinish reg1 s1 i src call

/-- n execute() calls issued synchronously within one scheduling tick: each
runs its synchronous prefix before any deferred part runs. The List Nat
output collects the ids of executions actually started. -/
def executeSyncN {D E : Type} : Nat → Registry → ProcState D E → Option String →
    Registry × ProcState D E × List Nat
  | 0, reg, s, _ => (reg, s, [])
  | n + 1, reg, s, msg =>
    match executeSync reg s msg with
    | (reg1, s1, oi) =>
      match executeSyncN n reg1 s1 msg with
      | (reg2, s2, ids) => (reg2, s2, oi.toList ++ ids)

/-- After the tick, the deferred remainder runs once for each execution that
was actually started. -/
def finishAll {A D E : Type} (reg : Registry) (s : ProcState D E)
    (ids : List Nat) (src : ArgsSource A) (call : A → Except E D) :
    Registry × ProcState D E × Nat :=
  match ids with
  | [] => (reg, s, 0)
  | i :: rest =>
    match executeFinish reg s i src call with
    | (reg1, s1, c) =>
      match finishAll reg1 s1 rest src call with
      | (reg2, s2, c') => (reg2, s2, c + c')

/-- Source pause: `paused.value = true`. -/
def ProcState.pause {D E : Type} (s : ProcState D E) : ProcState D E :=
  { s with paused := true }

/-- Source unpause: `paused.value = false`. -/
def ProcState.unpause {D E : Type} (s : ProcState D E) : ProcState D E :=
  { s with paused := false }

/-- Handler of the headers/args watcher of a procedure binding:
`if (!paused.value) execute()`. Only the synchronous prefix of the triggered
execute() is relevant to whether an execution starts. -/
def procWatchFire {D E : Type} (reg : Registry) (s : ProcState D E)
    (msg : Option String) : Registry × ProcState D E × Option Nat :=
  if s.paused then (reg, s, none) else executeSync reg s msg

/-! ## Reactivity classifier

Embeds the reactivity decisions of the procedure handler: the `reactive`
option, the shape of an input value as the classifier observes it, the
shouldTrack computations, the async warning conditions, and the guards in
front of the two watch() installations. -/

/-- The reactive option of a procedure call: undefined, a boolean, or a
record with optional per-field booleans for headers and args. -/
inductive ReactiveOpt
  | unset
  | all (b : Bool)
  | fields (headers args : Option Bool)
deriving Repr, DecidableEq

/-- Shape of an args or headers input as observed by the classifier:
undefined, a plain (truthy) value that is or is not a reactive container,
a synchronous function, or an asynchronous function. -/
inductive InputValue
  | undef
  | plain (isReactiveContainer : Bool)
  | fnSync
  | fnAsync
deriving Repr, DecidableEq

/-- Truthiness of the input as used by the guards `args && ...` and
`headers && ...`. -/
def InputValue.truthy : InputValue → Bool
  | .undef => false
  | _ => true

/-- Source `typeof v === 'function'`. -/
def InputValue.isFn : InputValue → Bool
  | .fnSync => true
  | .fnAsync => true
  | _ => false

/-- Source `v.constructor.name === 'AsyncFunction'` (conjoined with isFn). -/
def InputValue.isAsyncFn : InputValue → Bool
  | .fnAsync => true
  | _ => false

/-- Source isReactive(v) of the reactive runtime: true exactly for a
reactive container; never true for a function. -/
def isReactiveVal : InputValue → Bool
  | .plain r => r
  | _ => false

/-- Source `reactive === true || (typeof reactive === 'object' && reactive.args === true)`. -/
def isArgReactivityTrue : ReactiveOpt → Bool
  | .all true => true
  | .fields _ a => a == some true
  | _ => false

/-- Source `reactive === false || (typeof reactive === 'object' && reactive.args === false)`. -/
def isArgReactivityFalse : ReactiveOpt → Bool
  | .all false => true
  | .fields _ a => a == some false
  | _ => false

/-- Source `reactive === true || (typeof reactive === 'object' && reactive.headers === true)`. -/
def isHeaderReactivityTrue : ReactiveOpt → Bool
  | .all true => true
  | .fields h _ => h == some true
  | _ => false

/-- Source `reactive === false || (typeof reactive === 'object' && reactive.headers === false)`. -/
def isHeaderReactivityFalse : ReactiveOpt → Bool
  | .all false => true
  | .fields h _ => h == some false
  | _ => false

/-- Source shouldTrackReactiveArgs:
`isArgReactivityTrue ? true : isArgReactivityFalse ? false : args && isReactive(args)`. -/
def shouldTrackReactiveArgs (reactive : ReactiveOpt) (args : InputValue) : Bool :=
  if isArgReactivityTrue reactive then true
  else if isArgReactivityFalse reactive then false
  else args.truthy && isReactiveVal args

/-- Source shouldTrackHeaderReactivity:
`isHeaderReactivityTrue ? true : isHeaderReactivityFalse ? false : headers && isReactive(headers)`. -/
def shouldTrackHeaderReactivity (reactive : ReactiveOpt) (headers : InputValue) : Bool :=
  if isHeaderReactivityTrue reactive then true
  else if isHeaderReactivityFalse reactive then false
  else headers.truthy && isReactiveVal headers

/-- Guard in front of the args watch() installation:
`if (args && !areArgsAsyncFn && shouldTrackReactiveArgs) watch(...)`. -/
def argsWatcherInstalled (reactive : ReactiveOpt) (args : InputValue) : Bool :=
  args.truthy && !args.isAsyncFn && shouldTrackReactiveArgs reactive args

/-- Guard in front of the headers watch() installation:
`if (headers && !areHeadersAsyncFn && shouldTrackHeaderReactivity) watch(...)`. -/
def headersWatcherInstalled (reactive : ReactiveOpt) (headers : InputValue) : Bool :=
  headers.truthy && !headers.isAsyncFn && shouldTrackHeaderReactivity reactive headers

/-- Condition of the warning `Async Arguments cannot be reactive`:
`!config.silent && areArgsAsyncFn && shouldTrackReactiveArgs`. -/
def warnsAsyncArgs (silent : Bool) (reactive : ReactiveOpt) (args : InputValue) : Bool :=
  !silent && args.isAsyncFn && shouldTrackReactiveArgs reactive args

/-- Modelled from the spec for comparison (refinement-side definition):
trackable equals the explicit per-call override when one is provided, else
true iff the value is a reactive container or the value is an accessor while
the default reactivity flag is enabled. -/
def trackableSpec (override : Option Bool) (defaultReactive : Bool) (v : InputValue) : Bool :=
  match override with
  | some b => b
  | none => isReactiveVal v || (v.isFn && defaultReactive)

/-- Modelled from the spec for comparison (refinement-side definition): a
change-watcher is installed iff the input is trackable, except that an
asynchronous accessor never gets a watcher. -/
def watcherInstalledSpec (override : Option Bool) (defaultReactive : Bool) (v : InputValue) : Bool :=
  !v.isAsyncFn && trackableSpec override defaultReactive v

/-! ## Subscription binding state and lifecycle -/

/-- State machine values of a subscription binding. -/
inductive SubscriptionState
  | created
  | started
  | stopped
  | completed
deriving Repr, DecidableEq

/-- Per-binding reactive state of a useSubscription call site: data and
error refs, the lifecycle state, the `_subscribed` flag, the stored
`_unsubscribe` handle (none embeds undefined), and the `paused` flag. -/
structure SubBinding (D E : Type) where
  data : Option D
  error : Option E
  state : SubscriptionState
  subscribed : Bool
  unsubHandle : Option Unit
  paused : Bool
deriving Repr, DecidableEq

/-- Subscription binding state at call-site creation. -/
def SubBinding.init (D E : Type) (initialData : Option D) (initialError : Option E) :
    SubBinding D E :=
  ⟨initialData, initialError, .created, false, none, false⟩

/-- Source public subscribe: `subscribe = () => (_unsubscribe = _subscribe())`
where _subscribe early-returns undefined when `_subscribed.value` is already
true, and otherwise opens the transport subscription, sets the flag, and
returns the cleanup closure. The assignment stores that return value, so a
redundant call stores undefined. -/
def subSubscribeStep {D E : Type} (s : SubBinding D E) : SubBinding D E :=
  if s.subscribed then { s with unsubHandle := none }
  else { s with subscribed := true, unsubHandle := some () }

/-- Source public unsubscribe: `unsubscribe = () => _unsubscribe && _unsubscribe()`.
The stored closure runs the transport unsubscribe and clears `_subscribed`;
nothing ever resets `_unsubscribe` itself, so the handle stays stored. -/
def subUnsubscribeStep {D E : Type} (s : SubBinding D E) : SubBinding D E :=
  match s.unsubHandle with
  | none => s
  | some _ => { s with subscribed := false }

/-- A public lifecycle call on a subscription binding. -/
inductive SubOp
  | subscribeOp
  | unsubscribeOp
deriving Repr, DecidableEq

/-- Run a sequence of public subscribe()/unsubscribe() calls. -/
def runSubOps {D E : Type} (s : SubBinding D E) : List SubOp → SubBinding D E
  | [] => s
  | op :: ops =>
    runSubOps (match op with
      | .subscribeOp => subSubscribeStep s
      | .unsubscribeOp => subUnsubscribeStep s) ops

/-- Source subscription pause: `paused.value = true`. -/
def SubBinding.pause {D E : Type} (s : SubBinding D E) : SubBinding D E :=
  { s with paused := true }

/-- Source subscription unpause: `paused.value = false`. -/
def SubBinding.unpause {D E : Type} (s : SubBinding D E) : SubBinding D E :=
  { s with paused := false }

/-- Source resubscribe: `unsubscribe(); await nextTick(); subscribe()`,
composed sequentially in the single-threaded model. -/
def applyResubscribe {D E : Type} (s : SubBinding D E) : SubBinding D E :=
  subSubscribeStep (subUnsubscribeStep s)

/-- Handler of the subscription argument watcher:
`if (paused.value || !_subscribed.value) return; await resubscribe()`.
The Nat output counts resubscribe() invocations (0 or 1). -/
def argWatchFire {D E : Type} (s : SubBinding D E) : SubBinding D E × Nat :=
  if s.paused || !s.subscribed then (s, 0) else (applyResubscribe s, 1)

/-- Handler of the connectivity watcher, fired with the current and previous
signal values (previous is none on the immediate initial firing, embedding
the undefined old value):
`if (hasEverConnected && current && !previous) subscribe();
if (!hasEverConnected && current) hasEverConnected = true`.
Returns the updated hasEverConnected flag, the binding state, and the number
of subscribe() invocations (0 or 1). -/
def connWatchFire {D E : Type} (hasEverConnected : Bool) (s : SubBinding D E)
    (current : Bool) (previous : Option Bool) : Bool × SubBinding D E × Nat :=
  let trigger := hasEverConnected && current && !(previous.getD false)
  let s' := if trigger then subSubscribeStep s else s
  let h' := if !hasEverConnected && current then true else hasEverConnected
  (h', s', if trigger then 1 else 0)

/-- Fold the connectivity watcher over a chain of observed signal values,
threading hasEverConnected, the previous observed value, and the total count
of subscribe() invocations. -/
def connRunAux {D E : Type} : Bool → Option Bool → SubBinding D E → List Bool →
    Bool × SubBinding D E × Nat
  | h, _, s, [] => (h, s, 0)
  | h, prev, s, v :: vs =>
    match connWatchFire h s v prev with
    | (h1, s1, c) =>
      match connRunAux h1 (some v) s1 vs with
      | (h2, s2, c') => (h2, s2, c + c')

/-- Observation of a full value chain by the connectivity watcher: the
watcher is installed with `immediate: true`, so the first firing sees the
setup-time value with an undefined previous value, and hasEverConnected
starts out undefined (falsy). -/
def connRun {D E : Type} (s : SubBinding D E) (vals : List Bool) :
    Bool × SubBinding D E × Nat :=
  connRunAux false none s vals

/-! ## Execution records over begin/end traces

The registry claims speak about executions that are concurrently active:
each begin creates an execution record that stays active until its owner
ends it. The counter update below is the same computation as addExecution;
the record list is the history of begun executions (the Map in the source
keys entries by id, so it cannot represent two live executions with a
colliding id: the record list makes that collision expressible). -/

/-- One execution begun against the registry: its 1-based begin index, the
id the counter issued to it, and whether its owner has ended it. -/
structure ExecRecord where
  beginIdx : Nat
  execId : Nat
  ended : Bool
deriving Repr, DecidableEq

/-- Registry history state: the counter variable, the number of begins so
far, and one record per begun execution in begin order. -/
structure ExecTrace where
  counter : Nat
  beginCount : Nat
  records : List ExecRecord
deriving Repr, DecidableEq

/-- History state at facade construction. -/
def ExecTrace.init : ExecTrace := ⟨0, 0, []⟩

/-- A begin (addExecution) or an end (removeExecution performed by the owner
of the execution begun at the given 1-based index). -/
inductive RegOp
  | beginExec (msg : Option String)
  | endExec (beginIdx : Nat)
deriving Repr, DecidableEq

/-- Step of the registry history. A begin updates the counter exactly as
addExecution does (`if (id >= Number.MAX_SAFE_INTEGER) id = 0; id++`) and
appends a live record; an end marks the owner's record ended. -/
def stepOp (s : ExecTrace) : RegOp → ExecTrace
  | .beginExec _ =>
    let c := if MAX_SAFE_INTEGER ≤ s.counter then 0 else s.counter
    let i := c + 1
    ⟨i, s.beginCount + 1, s.records ++ [⟨s.beginCount + 1, i, false⟩]⟩
  | .endExec j =>
    ⟨s.counter, s.beginCount,
      s.records.map (fun r => if r.beginIdx == j then { r with ended := true } else r)⟩

/-- Run a begin/end trace from a history state. -/
def runOps (s : ExecTrace) : List RegOp → ExecTrace
  | [] => s
  | op :: ops => runOps (stepOp s op) ops

/-- The records of currently active (begun, not yet ended) executions. -/
def activeR (rs : List ExecRecord) : List ExecRecord :=
  rs.filter (fun r => !r.ended)

/-- Ids of the currently active executions. -/
def activeIds (s : ExecTrace) : List Nat :=
  (activeR s.records).map (fun r => r.execId)

/-- Number of currently active executions. -/
def activeCount (s : ExecTrace) : Nat :=
  (activeR s.records).length

/-- Every state reached while running the trace, the final one included,
has at most the given number of concurrently active executions. -/
def boundedActive (bound : Nat) (s : ExecTrace) : List RegOp → Prop
  | [] => activeCount s ≤ bound
  | op :: ops => activeCount s ≤ bound ∧ boundedActive bound (stepOp s op) ops

/-- A run of n short-lived executions: each begins and is ended immediately
by its owner. The second argument is the current begin count, so the k-th
pair ends the execution with begin index j + k. -/
def pairedOps : Nat → Nat → List RegOp
  | 0, _ => []
  | n + 1, j => RegOp.beginExec none :: RegOp.endExec (j + 1) :: pairedOps n (j + 1)

/-- A trace with at most two concurrently active executions that makes the
counter wrap: one long-lived execution, then MAX_SAFE_INTEGER - 1
short-lived ones, then one more begin, which receives the long-lived
execution's id again. -/
def ctrace : List RegOp :=
  RegOp.beginExec none :: (pairedOps (MAX_SAFE_INTEGER - 1) 1 ++ [RegOp.beginExec none])

/-- The explicit per-call override the reactive option carries for the args
input: the args field of the record form, the boolean form for all inputs,
none when unset. -/
def argOverride : ReactiveOpt → Option Bool
  | .unset => none
  | .all b => some b
  | .fields _ a => a

/-- The explicit per-call override the reactive option carries for the
headers input. -/
def headerOverride : ReactiveOpt → Option Bool
  | .unset => none
  | .all b => some b
  | .fields h _ => h

/-- Amended classifier rule: trackable equals the explicit override when one
is provided, and otherwise is true iff the value is a reactive container; a
plain accessor is not tracked by default. -/
def trackableAmended (override : Option Bool) (v : InputValue) : Bool :=
  match override with
  | some b => b
  | none => isReactiveVal v

/-- Amended watcher rule: a change-watcher is installed iff the input is
present (truthy), is not an asynchronous accessor, and is trackable. -/
def watcherInstalledAmended (override : Option Bool) (v : InputValue) : Bool :=
  v.truthy && !v.isAsyncFn && trackableAmended override v

/-- Invariant of the registry history: the counter and every issued id are
determined by the begin count modulo MAX_SAFE_INTEGER, and begin indices of
the records are positive, bounded by the begin count, and pairwise distinct. -/
def RegInv (s : ExecTrace) : Prop :=
  (s.counter = if s.beginCount = 0 then 0 else (s.beginCount - 1) % MAX_SAFE_INTEGER + 1) ∧
  (∀ r ∈ s.records, 1 ≤ r.beginIdx ∧ r.beginIdx ≤ s.beginCount ∧
    r.execId = (r.beginIdx - 1) % MAX_SAFE_INTEGER + 1) ∧
  (s.records.map (fun r => r.beginIdx)).Nodup

/-! ## Helper lemmas -/

theorem mapSet_fresh (m : List (Nat × Option String)) (k : Nat) (v : Option String)
    (h : ∀ p ∈ m, p.1 ≠ k) : mapSet m k v = m ++ [(k, v)] := by
  unfold mapSet
  rw [if_neg]
  simp only [List.any_eq_true, beq_iff_eq, not_exists]
  intro p
  rintro ⟨hp, hk⟩
  exact h p hp hk

theorem filter_fresh (m : List (Nat × Option String)) (k : Nat) (v : Option String)
    (h : ∀ p ∈ m, p.1 ≠ k) :
    (m ++ [(k, v)]).filter (fun p => !(p.1 == k)) = m := by
  rw [List.filter_append]
  have h1 : m.filter (fun p => !(p.1 == k)) = m :=
    List.filter_eq_self.mpr (fun p hp => by simpa using h p hp)
  have h2 : [(k, v)].filter (fun p : Nat × Option String => !(p.1 == k)) = [] := by simp
  rw [h1, h2, List.append_nil]

theorem executeSync_inflight {D E : Type} (reg : Registry) (s : ProcState D E)
    (msg : Option String) (h : s.executing = true) :
    executeSync reg s msg = (reg, s, none) := by
  simp [executeSync, h]

theorem executeSyncN_inflight {D E : Type} (n : Nat) (reg : Registry) (s : ProcState D E)
    (msg : Option String) (h : s.executing = true) :
    executeSyncN n reg s msg = (reg, s, []) := by
  induction n with
  | zero => rfl
  | succ m ih => simp [executeSyncN, executeSync_inflight reg s msg h, ih]

theorem connRunAux_reconnect_count {D E : Type} (vs : List Bool) :
    ∀ (h : Bool) (prev : Option Bool) (s : SubBinding D E),
      (connRunAux h prev s (vs ++ [false, true])).2.2 =
        (connRunAux h prev s (vs ++ [false])).2.2 + (if h || vs.any id then 1 else 0) := by
  induction vs with
  | nil =>
    intro h prev s
    cases h <;> simp [connRunAux, connWatchFire]
  | cons v vs ih =>
    intro h prev s
    cases h <;> cases v <;>
      simp [connRunAux, connWatchFire, ih, Nat.add_assoc]

theorem connRunAux_all_false_true {D E : Type} (k : Nat) :
    ∀ (prev : Option Bool) (s : SubBinding D E),
      (connRunAux false prev s (List.replicate k false ++ [true])).2.2 = 0 := by
  induction k with
  | zero => intro prev s; simp [connRunAux, connWatchFire]
  | succ m ih =>
    intro prev s
    simp [List.replicate_succ, connRunAux, connWatchFire, ih]

/-! ## Claim theorems -/

/-- C10: for every procedure binding, a failed execution mutates only the
error value and leaves data at its previous (or seed) value, and a
successful execution mutates only data and leaves the error value unchanged;
in particular a success after an earlier failure does not clear the stored
error, since the success result state is exactly the input state with only
the data field replaced. -/
theorem C10_frame_effects {A D E : Type} (src : ArgsSource A) (call : A → Except E D)
    (s : ProcState D E) (v : A) (hres : src.resolve = some v) :
    (∀ e, call v = Except.error e → _execute src call s = ({ s with error := some e }, 1)) ∧
    (∀ d, call v = Except.ok d → _execute src call s = ({ s with data := some d }, 1)) := by
  constructor <;> intro x hx <;> simp [_execute, hres, hx]

theorem C10_frame_effects_witness :
    _execute (ArgsSource.value 5) (fun _ => (Except.error 7 : Except Nat Nat))
        (ProcState.init Nat Nat (some 1)) =
      ({ data := some 1, error := some 7, executing := false, paused := false }, 1) ∧
    _execute (ArgsSource.value 5) (fun v => (Except.ok v : Except Nat Nat))
        { ProcState.init Nat Nat (some 1) with error := some 7 } =
      ({ data := some 5, error := some 7, executing := false, paused := false }, 1) :=
  ⟨(C10_frame_effects (ArgsSource.value 5) _ _ 5 rfl).1 7 rfl,
   (C10_frame_effects (ArgsSource.value 5) _ _ 5 rfl).2 5 rfl⟩

/-- C7: for a procedure binding with pausedFlag true, a firing of the
headers or args watcher triggers no execution (the handler is the identity
on registry and binding state and starts nothing), while a manual execute()
call is never suppressed by the pause flag: with no execution in flight it
registers an execution and flips the flag exactly as when unpaused. -/
theorem C7_pause_gating {D E : Type} (reg : Registry) (s : ProcState D E)
    (msg : Option String) :
    (s.paused = true → procWatchFire reg s msg = (reg, s, none)) ∧
    (s.paused = true → s.executing = false →
      executeSync reg s msg =
        ((addExecution reg msg).1, { s with executing := true },
          some (addExecution reg msg).2)) := by
  constructor
  · intro hp; simp [procWatchFire, hp]
  · intro _ he; simp [executeSync, he]

theorem C7_pause_gating_witness :
    procWatchFire Registry.init (ProcState.pause (ProcState.init Nat Nat none)) none =
      (Registry.init, ProcState.pause (ProcState.init Nat Nat none), none) ∧
    executeSync Registry.init (ProcState.pause (ProcState.init Nat Nat none)) none =
      ((addExecution Registry.init none).1,
        { ProcState.pause (ProcState.init Nat Nat none) with executing := true },
        some (addExecution Registry.init none).2) :=
  ⟨(C7_pause_gating _ _ _).1 rfl, (C7_pause_gating _ _ _).2 rfl rfl⟩

/-- C5: a firing of the subscription argument watcher triggers resubscribe()
only when the binding is subscribed and not paused; a firing while paused or
unsubscribed is a silent no-op returning the state unchanged with no
resubscription queued, so while paused the state stays started and data from
the old arguments is untouched; and after unpausing, one further firing
performs exactly one resubscription. -/
theorem C5_arg_watcher_gating {D E : Type} (s : SubBinding D E) :
    ((s.paused = true ∨ s.subscribed = false) → argWatchFire s = (s, 0)) ∧
    (s.paused = false → s.subscribed = true → (argWatchFire s).2 = 1) ∧
    (s.subscribed = true → s.state = SubscriptionState.started →
      (argWatchFire (SubBinding.pause s)).1.state = SubscriptionState.started ∧
      (argWatchFire (SubBinding.pause s)).1.data = s.data ∧
      (argWatchFire (SubBinding.pause s)).2 = 0 ∧
      (argWatchFire (SubBinding.unpause (argWatchFire (SubBinding.pause s)).1)).2 = 1) := by
  refine ⟨?_, ?_, ?_⟩
  · rintro (hp | hs)
    · simp [argWatchFire, hp]
    · simp [argWatchFire, hs]
  · intro hp hs; simp [argWatchFire, hp, hs]
  · intro hs hst
    simp [argWatchFire, SubBinding.pause, SubBinding.unpause, hs, hst]

theorem C5_arg_watcher_gating_witness :
    (argWatchFire (SubBinding.pause
        (⟨some 3, none, SubscriptionState.started, true, some (), false⟩ : SubBinding Nat Nat))).1.state =
      SubscriptionState.started ∧
    (argWatchFire (SubBinding.unpause (argWatchFire (SubBinding.pause
        (⟨some 3, none, SubscriptionState.started, true, some (), false⟩ : SubBinding Nat Nat))).1)).2 = 1 :=
  ⟨((C5_arg_watcher_gating _).2.2 rfl rfl).1,
   ((C5_arg_watcher_gating _).2.2 rfl rfl).2.2.2⟩

/-- C3: the spec invariant says the stored unsubscribe handle is present iff
the subscribed flag is true, and the source comments intend the handle to be
always available and up to date; evaluating the lifecycle code shows both
directions fail: after subscribe(); subscribe() the binding is subscribed
with no stored handle (so it can no longer be unsubscribed), and after
subscribe(); unsubscribe() a stale handle remains stored while
unsubscribed. -/
theorem C3_handle_invariant_bug :
    (runSubOps (SubBinding.init Nat Nat none none)
        [SubOp.subscribeOp, SubOp.subscribeOp]).subscribed = true ∧
    (runSubOps (SubBinding.init Nat Nat none none)
        [SubOp.subscribeOp, SubOp.subscribeOp]).unsubHandle = none ∧
    (runSubOps (SubBinding.init Nat Nat none none)
        [SubOp.subscribeOp, SubOp.unsubscribeOp]).subscribed = false ∧
    (runSubOps (SubBinding.init Nat Nat none none)
        [SubOp.subscribeOp, SubOp.unsubscribeOp]).unsubHandle = some () := by
  refine ⟨rfl, rfl, rfl, rfl⟩

/-- C4 counterexample: the claim's classifier rule installs a watcher for a
plain synchronous accessor with no explicit override when the default
reactivity flag is enabled, but the code's classifier never tracks a plain
accessor without an explicit override (a function is not a reactive
container), so no watcher is installed. -/
theorem C4_counterexample :
    watcherInstalledSpec none true InputValue.fnSync = true ∧
    argsWatcherInstalled ReactiveOpt.unset InputValue.fnSync = false ∧
    shouldTrackReactiveArgs ReactiveOpt.unset InputValue.fnSync = false := by
  decide

/-- C4 amended: a change-watcher is installed iff the input is present, is
not an asynchronous accessor, and is trackable, where trackable equals the
explicit per-call override when one is provided and otherwise is true iff
the value is a reactive container (a plain accessor is not tracked by
default); an asynchronous accessor never gets a watcher regardless of
override, and forcing reactivity on one merely produces a warning when
warnings are enabled. -/
theorem C4_amended_classifier :
    (∀ (r : ReactiveOpt) (v : InputValue),
      argsWatcherInstalled r v = watcherInstalledAmended (argOverride r) v) ∧
    (∀ (r : ReactiveOpt) (v : InputValue),
      headersWatcherInstalled r v = watcherInstalledAmended (headerOverride r) v) ∧
    (∀ r : ReactiveOpt, argsWatcherInstalled r InputValue.fnAsync = false ∧
      headersWatcherInstalled r InputValue.fnAsync = false) ∧
    (warnsAsyncArgs false (ReactiveOpt.all true) InputValue.fnAsync = true ∧
      argsWatcherInstalled (ReactiveOpt.all true) InputValue.fnAsync = false) := by
  refine ⟨?_, ?_, ?_, by decide⟩
  · intro r v
    cases r with
    | unset => cases v <;> rfl
    | all b => cases b <;> cases v <;> rfl
    | fields h a =>
      rcases a with _ | b
      · cases v <;> rfl
      · cases b <;> cases v <;> rfl
  · intro r v
    cases r with
    | unset => cases v <;> rfl
    | all b => cases b <;> cases v <;> rfl
    | fields h a =>
      rcases h with _ | b
      · cases v <;> rfl
      · cases b <;> cases v <;> rfl
  · intro r
    constructor
    · cases r with
      | unset => rfl
      | all b => cases b <;> rfl
      | fields h a => simp [argsWatcherInstalled, InputValue.isAsyncFn]
    · cases r with
      | unset => rfl
      | all b => cases b <;> rfl
      | fields h a => simp [headersWatcherInstalled, InputValue.isAsyncFn]

/-- C6: over any chain of observed connectivity values, a false-to-true
transition that follows an earlier observed true (which, the signal being a
watched boolean chain, means a true-to-false transition was observed in
between) invokes subscribe() exactly once more than the same chain without
the reconnect, for every binding state including a paused one (the handler
never reads the pause flag); and the first true ever observed, the initial
connect, invokes subscribe() zero times over the whole chain. -/
theorem C6_reconnect_trigger {D E : Type} (s : SubBinding D E) :
    (∀ vs : List Bool, vs.any id = true →
      (connRun s (vs ++ [false, true])).2.2 = (connRun s (vs ++ [false])).2.2 + 1) ∧
    (∀ k : Nat, (connRun s (List.replicate k false ++ [true])).2.2 = 0) := by
  constructor
  · intro vs hvs
    have h := connRunAux_reconnect_count (D := D) (E := E) vs false none s
    simpa [connRun, hvs] using h
  · intro k
    exact connRunAux_all_false_true k none s

theorem C6_reconnect_trigger_witness :
    (connRun (SubBinding.pause (SubBinding.init Nat Nat none none)) ([true] ++ [false, true])).2.2 =
      (connRun (SubBinding.pause (SubBinding.init Nat Nat none none)) ([true] ++ [false])).2.2 + 1 ∧
    (connRun (SubBinding.init Nat Nat none none) (List.replicate 1 false ++ [true])).2.2 = 0 :=
  ⟨(C6_reconnect_trigger (SubBinding.pause (SubBinding.init Nat Nat none none))).1 [true] rfl,
   (C6_reconnect_trigger (SubBinding.init Nat Nat none none)).2 1⟩

/-- C2: an execute() call that actually starts an execution removes at
settlement exactly the registry entry it added and clears the executing
flag, identically in the failure and the success path; a remote-call
rejection is consumed by the catch into the error value (the embedding is a
total function, so nothing escapes execute()), leaving data untouched, and a
fulfilment is stored into data leaving the error value untouched. -/
theorem C2_cleanup_and_error_capture {A D E : Type} (reg : Registry) (s : ProcState D E)
    (msg : Option String) (src : ArgsSource A) (call : A → Except E D)
    (hexec : s.executing = false)
    (hfresh : ∀ p ∈ reg.active, p.1 ≠ (addExecution reg msg).2) :
    (executeRun reg s msg src call).1.active = reg.active ∧
    (executeRun reg s msg src call).2.1.executing = false ∧
    (∀ v e, src.resolve = some v → call v = Except.error e →
      (executeRun reg s msg src call).2.1.error = some e ∧
      (executeRun reg s msg src call).2.1.data = s.data) ∧
    (∀ v d, src.resolve = some v → call v = Except.ok d →
      (executeRun reg s msg src call).2.1.data = some d ∧
      (executeRun reg s msg src call).2.1.error = s.error) := by
  have hadd : (addExecution reg msg).1.active =
      reg.active ++ [((addExecution reg msg).2, msg)] := by
    simp only [addExecution]
    exact mapSet_fresh _ _ _ hfresh
  have hrun : executeRun reg s msg src call =
      executeFinish (addExecution reg msg).1 { s with executing := true }
        (addExecution reg msg).2 src call := by
    simp [executeRun, executeSync, hexec]
  refine ⟨?_, ?_, ?_, ?_⟩
  · rw [hrun]
    simp only [executeFinish, removeExecution]
    rw [hadd]
    exact filter_fresh _ _ _ hfresh
  · rw [hrun]; simp [executeFinish]
  · intro v e hres hcall
    rw [hrun]; simp [executeFinish, _execute, hres, hcall]
  · intro v d hres hcall
    rw [hrun]; simp [executeFinish, _execute, hres, hcall]

theorem C2_cleanup_witness :
    (executeRun Registry.init (ProcState.init Nat Nat none) none
        (ArgsSource.value 4) (fun _ => (Except.error 9 : Except Nat Nat))).1.active = [] ∧
    (executeRun Registry.init (ProcState.init Nat Nat none) none
        (ArgsSource.value 4) (fun _ => (Except.error 9 : Except Nat Nat))).2.1.executing = false ∧
    (executeRun Registry.init (ProcState.init Nat Nat none) none
        (ArgsSource.value 4) (fun _ => (Except.error 9 : Except Nat Nat))).2.1.error = some 9 :=
  have h := C2_cleanup_and_error_capture Registry.init (ProcState.init Nat Nat none) none
    (ArgsSource.value 4) (fun _ => (Except.error 9 : Except Nat Nat)) rfl (by simp [Registry.init])
  ⟨h.1, h.2.1, (h.2.2.1 4 9 rfl rfl).1⟩

/-- C8: when the argument source is an accessor, execute() reads it at call
time; if it yields the no-value sentinel (undefined) the remote call is
skipped for that invocation while the coalescing bookkeeping still completes
cleanly, with the added registry entry removed, the executing flag back to
false, and data and error untouched; if it yields a value, exactly one
remote call is made with that freshly read value. -/
theorem C8_accessor_sentinel {A D E : Type} (reg : Registry) (s : ProcState D E)
    (msg : Option String) (f : Unit → Option A) (call : A → Except E D)
    (hexec : s.executing = false)
    (hfresh : ∀ p ∈ reg.active, p.1 ≠ (addExecution reg msg).2) :
    (f () = none →
      (executeRun reg s msg (ArgsSource.accessor f) call).2.2 = 0 ∧
      (executeRun reg s msg (ArgsSource.accessor f) call).1.active = reg.active ∧
      (executeRun reg s msg (ArgsSource.accessor f) call).2.1.executing = false ∧
      (executeRun reg s msg (ArgsSource.accessor f) call).2.1.data = s.data ∧
      (executeRun reg s msg (ArgsSource.accessor f) call).2.1.error = s.error) ∧
    (∀ v, f () = some v →
      (executeRun reg s msg (ArgsSource.accessor f) call).2.2 = 1 ∧
      (∀ d, call v = Except.ok d →
        (executeRun reg s msg (ArgsSource.accessor f) call).2.1.data = some d)) := by
  have hadd : (addExecution reg msg).1.active =
      reg.active ++ [((addExecution reg msg).2, msg)] := by
    simp only [addExecution]
    exact mapSet_fresh _ _ _ hfresh
  have hrun : executeRun reg s msg (ArgsSource.accessor f) call =
      executeFinish (addExecution reg msg).1 { s with executing := true }
        (addExecution reg msg).2 (ArgsSource.accessor f) call := by
    simp [executeRun, executeSync, hexec]
  constructor
  · intro hnone
    refine ⟨?_, ?_, ?_, ?_, ?_⟩
    · rw [hrun]; simp [executeFinish, _execute, ArgsSource.resolve, hnone]
    · rw [hrun]
      simp only [executeFinish, removeExecution]
      rw [hadd]
      exact filter_fresh _ _ _ hfresh
    · rw [hrun]; simp [executeFinish]
    · rw [hrun]; simp [executeFinish, _execute, ArgsSource.resolve, hnone]
    · rw [hrun]; simp [executeFinish, _execute, ArgsSource.resolve, hnone]
  · intro v hsome
    constructor
    · rw [hrun]
      simp only [executeFinish, _execute, ArgsSource.resolve, hsome]
      cases call v <;> rfl
    · intro d hcall
      rw [hrun]
      simp [executeFinish, _execute, ArgsSource.resolve, hsome, hcall]

theorem C8_accessor_sentinel_witness :
    (executeRun Registry.init (ProcState.init Nat Nat (some 2)) none
        (ArgsSource.accessor (fun _ => (none : Option Nat)))
        (fun v => (Except.ok v : Except Nat Nat))).2.2 = 0 ∧
    (executeRun Registry.init (ProcState.init Nat Nat (some 2)) none
        (ArgsSource.accessor (fun _ => (none : Option Nat)))
        (fun v => (Except.ok v : Except Nat Nat))).1.active = [] ∧
    (executeRun Registry.init (ProcState.init Nat Nat (some 2)) none
        (ArgsSource.accessor (fun _ => (none : Option Nat)))
        (fun v => (Except.ok v : Except Nat Nat))).2.1.data = some 2 :=
  have h := (C8_accessor_sentinel Registry.init (ProcState.init Nat Nat (some 2)) none
    (fun _ => (none : Option Nat)) (fun v => (Except.ok v : Except Nat Nat))
    rfl (by simp [Registry.init])).1 rfl
  ⟨h.1, h.2.1, h.2.2.2.1⟩

/-- C1: with no execution in flight, any number n of execute() calls issued
synchronously within one scheduling tick start exactly one execution: the
first call registers one entry and flips the flag, every further call sees
the flag and returns without starting anything, and once the single deferred
remainder settles, exactly one remote call has been made, the one entry has
been removed, and the registry's active set is back to its original value. -/
theorem C1_coalescing {A D E : Type} (reg : Registry) (s : ProcState D E)
    (msg : Option String) (n : Nat) (src : ArgsSource A) (call : A → Except E D)
    (hexec : s.executing = false) (hn : 1 ≤ n)
    (hfresh : ∀ p ∈ reg.active, p.1 ≠ (addExecution reg msg).2)
    (hargs : (ArgsSource.resolve src).isSome = true) :
    (executeSyncN n reg s msg).2.2 = [(addExecution reg msg).2] ∧
    (executeSyncN n reg s msg).1.active =
      reg.active ++ [((addExecution reg msg).2, msg)] ∧
    (executeSyncN n reg s msg).2.1.executing = true ∧
    (finishAll (executeSyncN n reg s msg).1 (executeSyncN n reg s msg).2.1
        (executeSyncN n reg s msg).2.2 src call).2.2 = 1 ∧
    (finishAll (executeSyncN n reg s msg).1 (executeSyncN n reg s msg).2.1
        (executeSyncN n reg s msg).2.2 src call).1.active = reg.active ∧
    (finishAll (executeSyncN n reg s msg).1 (executeSyncN n reg s msg).2.1
        (executeSyncN n reg s msg).2.2 src call).2.1.executing = false := by
  obtain ⟨m, rfl⟩ : ∃ m, n = m + 1 := ⟨n - 1, (Nat.succ_pred_eq_of_pos hn).symm⟩
  have hadd : (addExecution reg msg).1.active =
      reg.active ++ [((addExecution reg msg).2, msg)] := by
    simp only [addExecution]
    exact mapSet_fresh _ _ _ hfresh
  have hstep : executeSyncN (m + 1) reg s msg =
      ((addExecution reg msg).1, { s with executing := true },
        [(addExecution reg msg).2]) := by
    simp [executeSyncN, executeSync, hexec,
      executeSyncN_inflight m (addExecution reg msg).1 { s with executing := true } msg rfl]
  obtain ⟨v, hv⟩ := Option.isSome_iff_exists.mp hargs
  have hcalls : (_execute src call { s with executing := true }).2 = 1 := by
    simp only [_execute, hv]
    cases call v <;> rfl
  rw [hstep]
  refine ⟨rfl, hadd, rfl, ?_, ?_, ?_⟩
  · simp [finishAll, executeFinish, hcalls]
  · simp only [finishAll, executeFinish, removeExecution]
    rw [hadd]
    exact filter_fresh _ _ _ hfresh
  · simp [finishAll, executeFinish]

theorem C1_coalescing_witness :
    (executeSyncN (D := Nat) (E := Nat) 10 Registry.init (ProcState.init Nat Nat none) none).2.2 =
      [(addExecution Registry.init none).2] ∧
    (finishAll (executeSyncN (D := Nat) (E := Nat) 10 Registry.init (ProcState.init Nat Nat none) none).1
        (executeSyncN (D := Nat) (E := Nat) 10 Registry.init (ProcState.init Nat Nat none) none).2.1
        (executeSyncN (D := Nat) (E := Nat) 10 Registry.init (ProcState.init Nat Nat none) none).2.2
        (ArgsSource.value 5) (fun v => (Except.ok v : Except Nat Nat))).2.2 = 1 ∧
    (finishAll (executeSyncN (D := Nat) (E := Nat) 10 Registry.init (ProcState.init Nat Nat none) none).1
        (executeSyncN (D := Nat) (E := Nat) 10 Registry.init (ProcState.init Nat Nat none) none).2.1
        (executeSyncN (D := Nat) (E := Nat) 10 Registry.init (ProcState.init Nat Nat none) none).2.2
        (ArgsSource.value 5) (fun v => (Except.ok v : Except Nat Nat))).1.active = [] :=
  have h := C1_coalescing Registry.init (ProcState.init Nat Nat none) none 10
    (ArgsSource.value (5 : Nat)) (fun v => (Except.ok v : Except Nat Nat))
    rfl (by decide) (by simp [Registry.init]) rfl
  ⟨h.1, h.2.2.2.1, h.2.2.2.2.1⟩

/-! ## Registry id lemmas for C9 -/

theorem MAX_pos : 0 < MAX_SAFE_INTEGER := by norm_num [MAX_SAFE_INTEGER]

theorem MAX_one_lt : 1 < MAX_SAFE_INTEGER := by norm_num [MAX_SAFE_INTEGER]

theorem succ_mod_MAX (k : Nat) :
    (k + 1) % MAX_SAFE_INTEGER =
      if k % MAX_SAFE_INTEGER + 1 = MAX_SAFE_INTEGER then 0
      else k % MAX_SAFE_INTEGER + 1 := by
  rw [Nat.add_mod, Nat.mod_eq_of_lt MAX_one_lt]
  by_cases h : k % MAX_SAFE_INTEGER + 1 = MAX_SAFE_INTEGER
  · rw [if_pos h, h, Nat.mod_self]
  · have hlt : k % MAX_SAFE_INTEGER + 1 < MAX_SAFE_INTEGER :=
      lt_of_le_of_ne (Nat.succ_le_of_lt (Nat.mod_lt k MAX_pos)) h
    rw [if_neg h, Nat.mod_eq_of_lt hlt]

theorem RegInv_init : RegInv ExecTrace.init := by
  refine ⟨rfl, ?_, ?_⟩ <;> simp [ExecTrace.init]

theorem counter_step_begin (s : ExecTrace)
    (hc : s.counter =
      if s.beginCount = 0 then 0 else (s.beginCount - 1) % MAX_SAFE_INTEGER + 1) :
    (if MAX_SAFE_INTEGER ≤ s.counter then 0 else s.counter) + 1 =
      s.beginCount % MAX_SAFE_INTEGER + 1 := by
  rcases Nat.eq_zero_or_pos s.beginCount with h0 | hpos
  · rw [hc, h0]
    simp [Nat.not_le.mpr MAX_pos]
  · obtain ⟨j, hj⟩ : ∃ j, s.beginCount = j + 1 :=
      ⟨s.beginCount - 1, (Nat.succ_pred_eq_of_pos hpos).symm⟩
    rw [hc, hj]
    simp only [Nat.succ_ne_zero, if_false, Nat.add_sub_cancel]
    rw [succ_mod_MAX j]
    have hle : j % MAX_SAFE_INTEGER + 1 ≤ MAX_SAFE_INTEGER :=
      Nat.succ_le_of_lt (Nat.mod_lt j MAX_pos)
    by_cases hedge : j % MAX_SAFE_INTEGER + 1 = MAX_SAFE_INTEGER
    · rw [if_pos hedge, if_pos hedge.ge]
    · rw [if_neg hedge, if_neg (fun h => hedge (le_antisymm hle h))]

theorem RegInv_step (s : ExecTrace) (op : RegOp) (h : RegInv s) :
    RegInv (stepOp s op) := by
  obtain ⟨hc, hr, hnd⟩ := h
  cases op with
  | endExec j =>
    refine ⟨hc, ?_, ?_⟩
    · intro r hrm
      simp only [stepOp, List.mem_map] at hrm
      obtain ⟨r0, hr0, rfl⟩ := hrm
      obtain ⟨h1, h2, h3⟩ := hr r0 hr0
      by_cases hb : (r0.beginIdx == j) = true <;> simp [stepOp, hb, h1, h2, h3]
    · simp only [stepOp, List.map_map]
      have heq : (s.records.map (fun r =>
          ((if r.beginIdx == j then { r with ended := true } else r) : ExecRecord).beginIdx)) =
          s.records.map (fun r => r.beginIdx) := by
        apply List.map_congr_left
        intro r _
        by_cases hb : (r.beginIdx == j) = true <;> simp [hb]
      rw [Function.comp_def, heq]
      exact hnd
  | beginExec m =>
    have hctr := counter_step_begin s hc
    refine ⟨?_, ?_, ?_⟩
    · simp only [stepOp]
      rw [hctr]
      simp [Nat.add_sub_cancel]
    · intro r hrm
      simp only [stepOp, List.mem_append, List.mem_singleton] at hrm
      rcases hrm with hold | rfl
      · obtain ⟨h1, h2, h3⟩ := hr r hold
        exact ⟨h1, le_trans h2 (Nat.le_succ _), h3⟩
      · refine ⟨Nat.succ_le_succ (Nat.zero_le _), le_refl _, ?_⟩
        simp only [Nat.add_sub_cancel]
        exact hctr.symm ▸ rfl
    · simp only [stepOp, List.map_append, List.map_singleton]
      rw [List.nodup_append]
      refine ⟨hnd, List.nodup_singleton _, ?_⟩
      intro a ha hb
      simp only [List.mem_singleton] at hb
      simp only [List.mem_map] at ha
      obtain ⟨r0, hr0, rfl⟩ := ha
      have := (hr r0 hr0).2.1
      omega

theorem RegInv_runOps (ops : List RegOp) : ∀ s, RegInv s → RegInv (runOps s ops) := by
  induction ops with
  | nil => intro s h; exact h
  | cons op ops ih => intro s h; exact ih _ (RegInv_step s op h)

/-- C9 amended: each addExecution call returns an id exactly one greater
than the previously returned id, except that the call after the one that
returned MAX_SAFE_INTEGER wraps the counter to 0 and returns 1; and over any
begin/end trace, no two concurrently active executions share an id provided
every pair of concurrently active executions is fewer than MAX_SAFE_INTEGER
begins apart, which holds in particular whenever fewer than
MAX_SAFE_INTEGER begins ever happen; a bound on the number of simultaneously
active executions alone is not sufficient. -/
theorem C9_amended_wraparound :
    (∀ (r : Registry) (m1 m2 : Option String),
      (addExecution (addExecution r m1).1 m2).2 =
        if (addExecution r m1).2 = MAX_SAFE_INTEGER then 1
        else (addExecution r m1).2 + 1) ∧
    (∀ ops : List RegOp,
      (∀ r1 ∈ activeR (runOps ExecTrace.init ops).records,
        ∀ r2 ∈ activeR (runOps ExecTrace.init ops).records,
          r1.beginIdx < r2.beginIdx + MAX_SAFE_INTEGER) →
      (activeIds (runOps ExecTrace.init ops)).Nodup) := by
  constructor
  · intro r m1 m2
    simp only [addExecution]
    by_cases hw : MAX_SAFE_INTEGER ≤ r.counter
    · simp only [hw, if_true]
      have := MAX_one_lt
      rw [if_neg (by omega), if_neg (by omega)]
    · simp only [hw, if_false]
      have hclt : r.counter < MAX_SAFE_INTEGER := Nat.lt_of_not_le hw
      by_cases hpeak : r.counter + 1 = MAX_SAFE_INTEGER
      · rw [if_pos (by omega), if_pos hpeak]
      · rw [if_neg (by omega), if_neg hpeak]
  · intro ops hdist
    obtain ⟨hc, hr, hnd⟩ := RegInv_runOps ops ExecTrace.init RegInv_init
    have hsub : ((activeR (runOps ExecTrace.init ops).records).map (fun r => r.beginIdx)).Sublist
        (((runOps ExecTrace.init ops).records).map (fun r => r.beginIdx)) :=
      List.Sublist.map _ (List.filter_sublist _)
    have hndA : ((activeR (runOps ExecTrace.init ops).records).map (fun r => r.beginIdx)).Nodup :=
      hnd.sublist hsub
    have hndR : (activeR (runOps ExecTrace.init ops).records).Nodup :=
      List.Nodup.of_map _ hndA
    refine List.Nodup.map_on ?_ hndR
    intro x hx y hy hid
    have hx' : x ∈ (runOps ExecTrace.init ops).records := List.mem_of_mem_filter hx
    have hy' : y ∈ (runOps ExecTrace.init ops).records := List.mem_of_mem_filter hy
    obtain ⟨hx1, hxk, hxid⟩ := hr x hx'
    obtain ⟨hy1, hyk, hyid⟩ := hr y hy'
    have hmod : (x.beginIdx - 1) % MAX_SAFE_INTEGER = (y.beginIdx - 1) % MAX_SAFE_INTEGER := by
      rw [hxid, hyid] at hid
      omega
    have hbeq : x.beginIdx = y.beginIdx := by
      rcases le_total x.beginIdx y.beginIdx with hle | hle
      · have hdvd : MAX_SAFE_INTEGER ∣ (y.beginIdx - 1) - (x.beginIdx - 1) :=
          (Nat.modEq_iff_dvd' (Nat.sub_le_sub_right hle 1)).mp hmod
        have hsub2 : (y.beginIdx - 1) - (x.beginIdx - 1) = y.beginIdx - x.beginIdx := by omega
        have hlt : y.beginIdx - x.beginIdx < MAX_SAFE_INTEGER := by
          have := hdist y hy x hx
          omega
        have := Nat.eq_zero_of_dvd_of_lt (hsub2 ▸ hdvd) hlt
        omega
      · have hdvd : MAX_SAFE_INTEGER ∣ (x.beginIdx - 1) - (y.beginIdx - 1) :=
          (Nat.modEq_iff_dvd' (Nat.sub_le_sub_right hle 1)).mp hmod.symm
        have hsub2 : (x.beginIdx - 1) - (y.beginIdx - 1) = x.beginIdx - y.beginIdx := by omega
        have hlt : x.beginIdx - y.beginIdx < MAX_SAFE_INTEGER := by
          have := hdist x hx y hy
          omega
        have := Nat.eq_zero_of_dvd_of_lt (hsub2 ▸ hdvd) hlt
        omega
    exact List.inj_on_of_nodup_map hndA hx hy hbeq

theorem C9_amended_wraparound_witness :
    (activeIds (runOps ExecTrace.init [RegOp.beginExec none, RegOp.beginExec none])).Nodup :=
  C9_amended_wraparound.2 [RegOp.beginExec none, RegOp.beginExec none] (by decide)

theorem runOps_nil (s : ExecTrace) : runOps s [] = s := rfl

theorem runOps_cons (s : ExecTrace) (op : RegOp) (ops : List RegOp) :
    runOps s (op :: ops) = runOps (stepOp s op) ops := rfl

theorem ctrace_def :
    ctrace = RegOp.beginExec none ::
      (pairedOps (MAX_SAFE_INTEGER - 1) 1 ++ [RegOp.beginExec none]) := rfl

theorem runOps_append (l1 l2 : List RegOp) :
    ∀ s, runOps s (l1 ++ l2) = runOps (runOps s l1) l2 := by
  induction l1 with
  | nil => intro s; rfl
  | cons op ops ih =>
    intro s
    rw [List.cons_append, runOps_cons, runOps_cons]
    exact ih _

theorem boundedActive_append (b : Nat) (l1 l2 : List RegOp) :
    ∀ s, boundedActive b s l1 → boundedActive b (runOps s l1) l2 →
      boundedActive b s (l1 ++ l2) := by
  induction l1 with
  | nil => intro s _ h2; exact h2
  | cons op ops ih =>
    intro s h1 h2
    exact ⟨h1.1, ih _ h1.2 h2⟩

theorem activeR_append_live (rs : List ExecRecord) (j i : Nat) :
    activeR (rs ++ [⟨j, i, false⟩]) = activeR rs ++ [⟨j, i, false⟩] := by
  simp [activeR, List.filter_append]

theorem activeR_append_dead (rs : List ExecRecord) (j i : Nat) :
    activeR (rs ++ [⟨j, i, true⟩]) = activeR rs := by
  simp [activeR, List.filter_append]

theorem pairedOps_spec (n : Nat) : ∀ (j : Nat) (s : ExecTrace),
    s.counter = j → s.beginCount = j → (∀ r ∈ s.records, r.beginIdx ≤ j) →
    j + n ≤ MAX_SAFE_INTEGER → activeCount s ≤ 1 →
    (runOps s (pairedOps n j)).counter = j + n ∧
    (runOps s (pairedOps n j)).beginCount = j + n ∧
    activeR (runOps s (pairedOps n j)).records = activeR s.records ∧
    (∀ r ∈ (runOps s (pairedOps n j)).records, r.beginIdx ≤ j + n) ∧
    boundedActive 2 s (pairedOps n j) := by
  induction n with
  | zero =>
    intro j s hc hb hrec _ hcnt
    refine ⟨?_, ?_, ?_, ?_, ?_⟩
    · rw [Nat.add_zero]; exact hc
    · rw [Nat.add_zero]; exact hb
    · rfl
    · intro r hrm
      have := hrec r hrm
      omega
    · exact le_trans hcnt (by omega)
  | succ m ih =>
    intro j s hc hb hrec hle hcnt
    have hnotmax : ¬ MAX_SAFE_INTEGER ≤ j := by omega
    have hs1 : stepOp s (RegOp.beginExec none) =
        ⟨j + 1, j + 1, s.records ++ [⟨j + 1, j + 1, false⟩]⟩ := by
      simp [stepOp, hnotmax, hc, hb]
    have hmapold : s.records.map (fun r =>
        if r.beginIdx == j + 1 then { r with ended := true } else r) = s.records := by
      have hpt : ∀ r ∈ s.records,
          (if r.beginIdx == j + 1 then ({ r with ended := true } : ExecRecord) else r) = r := by
        intro r hrm
        have hle' := hrec r hrm
        have hne : (r.beginIdx == j + 1) = false := by
          simp only [beq_eq_false_iff_ne, ne_eq]
          omega
        simp [hne]
      calc s.records.map (fun r => if r.beginIdx == j + 1 then { r with ended := true } else r)
          = s.records.map (fun r => r) := List.map_congr_left hpt
        _ = s.records := List.map_id' s.records
    have hs2 : stepOp (stepOp s (RegOp.beginExec none)) (RegOp.endExec (j + 1)) =
        ⟨j + 1, j + 1, s.records ++ [⟨j + 1, j + 1, true⟩]⟩ := by
      rw [hs1]
      simp only [stepOp, List.map_append, hmapold, List.map_singleton]
      simp
    have hrec2 : ∀ r ∈ s.records ++ [(⟨j + 1, j + 1, true⟩ : ExecRecord)], r.beginIdx ≤ j + 1 := by
      intro r hrm
      rcases List.mem_append.mp hrm with hold | hnew
      · exact le_trans (hrec r hold) (Nat.le_succ _)
      · simp only [List.mem_singleton] at hnew
        rw [hnew]
    have hcnt2eq : activeCount (⟨j + 1, j + 1, s.records ++ [⟨j + 1, j + 1, true⟩]⟩ : ExecTrace) =
        activeCount s := by
      simp [activeCount, activeR_append_dead]
    have hrun : runOps s (pairedOps (m + 1) j) =
        runOps ⟨j + 1, j + 1, s.records ++ [⟨j + 1, j + 1, true⟩]⟩ (pairedOps m (j + 1)) := by
      have hcons : runOps s (pairedOps (m + 1) j) =
          runOps (stepOp (stepOp s (RegOp.beginExec none)) (RegOp.endExec (j + 1)))
            (pairedOps m (j + 1)) := rfl
      rw [hcons, hs2]
    have ihres := ih (j + 1) ⟨j + 1, j + 1, s.records ++ [⟨j + 1, j + 1, true⟩]⟩
      rfl rfl hrec2 (by omega) (by rw [hcnt2eq]; exact hcnt)
    obtain ⟨ic, ib, ia, ir, ibnd⟩ := ihres
    have harith : j + 1 + m = j + (m + 1) := by omega
    refine ⟨?_, ?_, ?_, ?_, ?_⟩
    · rw [hrun, ic, harith]
    · rw [hrun, ib, harith]
    · rw [hrun, ia]
      simp [activeR_append_dead]
    · rw [hrun]
      intro r hrm
      have := ir r hrm
      omega
    · simp only [pairedOps, boundedActive]
      refine ⟨le_trans hcnt (by omega), ?_, ?_⟩
      · rw [hs1]
        simp only [activeCount, activeR_append_live, List.length_append, List.length_singleton]
        simp only [activeCount] at hcnt
        omega
      · rw [hs2]
        exact ibnd

theorem ctrace_final_state :
    activeIds (runOps ExecTrace.init ctrace) = [1, 1] := by
  have hs1 : stepOp ExecTrace.init (RegOp.beginExec none) =
      ⟨1, 1, [⟨1, 1, false⟩]⟩ := by
    simp [stepOp, ExecTrace.init, Nat.not_le.mpr MAX_pos]
  have hM1 : 1 ≤ MAX_SAFE_INTEGER := le_of_lt MAX_one_lt
  have hspec := pairedOps_spec (MAX_SAFE_INTEGER - 1) 1 ⟨1, 1, [⟨1, 1, false⟩]⟩
    rfl rfl (by intro r hrm; simp only [List.mem_singleton] at hrm; rw [hrm])
    (by omega) (by simp [activeCount, activeR])
  obtain ⟨hc2, hb2, ha2, _, _⟩ := hspec
  have h1M : 1 + (MAX_SAFE_INTEGER - 1) = MAX_SAFE_INTEGER := by omega
  rw [h1M] at hc2 hb2
  have hrun : runOps ExecTrace.init ctrace =
      stepOp (runOps (⟨1, 1, [⟨1, 1, false⟩]⟩ : ExecTrace)
        (pairedOps (MAX_SAFE_INTEGER - 1) 1)) (RegOp.beginExec none) := by
    rw [ctrace_def, runOps_cons, hs1, runOps_append, runOps_cons, runOps_nil]
  rw [hrun]
  simp only [activeIds, stepOp]
  rw [hc2, if_pos (le_refl MAX_SAFE_INTEGER)]
  rw [activeR_append_live, List.map_append, ha2]
  simp [activeR]

/-- C9 counterexample: the counterexample trace keeps at most two executions
concurrently active at every point, yet ends with two concurrently active
executions holding the same id: the long-lived execution begun first and the
execution begun right after the counter wrapped both hold id 1, so a bound
on concurrent executions alone does not ensure distinct ids among the active
set. -/
theorem C9_counterexample :
    boundedActive 2 ExecTrace.init ctrace ∧
    ¬ (activeIds (runOps ExecTrace.init ctrace)).Nodup := by
  constructor
  · have hs1 : stepOp ExecTrace.init (RegOp.beginExec none) =
        ⟨1, 1, [⟨1, 1, false⟩]⟩ := by
      simp [stepOp, ExecTrace.init, Nat.not_le.mpr MAX_pos]
    have hM1 : 1 ≤ MAX_SAFE_INTEGER := le_of_lt MAX_one_lt
    have hspec := pairedOps_spec (MAX_SAFE_INTEGER - 1) 1 ⟨1, 1, [⟨1, 1, false⟩]⟩
      rfl rfl (by intro r hrm; simp only [List.mem_singleton] at hrm; rw [hrm])
      (by omega) (by simp [activeCount, activeR])
    obtain ⟨hc2, hb2, ha2, _, hbnd⟩ := hspec
    show activeCount ExecTrace.init ≤ 2 ∧
      boundedActive 2 (stepOp ExecTrace.init (RegOp.beginExec none))
        (pairedOps (MAX_SAFE_INTEGER - 1) 1 ++ [RegOp.beginExec none])
    refine ⟨by simp [activeCount, activeR, ExecTrace.init], ?_⟩
    rw [hs1]
    apply boundedActive_append
    · exact hbnd
    · show boundedActive 2 _ [RegOp.beginExec none]
      refine ⟨?_, ?_⟩
      · simp only [activeCount, ha2]
        simp [activeR]
      · show activeCount _ ≤ 2
        simp only [activeCount, stepOp]
        rw [activeR_append_live, List.length_append, ha2]
        simp [activeR]
  · rw [ctrace_final_state]
    simp

end UseTRPC
